import Mathlib

/-!
Verification development for the diffx-python package.

The package exposes a semantic diff over JSON-like tree values.  The
Python sources under src/ are thin wrappers around a native engine
(diff_py and the parse_X_py functions); the engine itself is not part of
the Python sources, so it is modelled here from the specification
(sections 3, 4.2, 4.3, 4.4 and 4.5 of the design document).  The Python
wrapper layer (error wrapping, extension dispatch, format dispatch, the
two convenience entry points in diffx.py and in the package init module)
is embedded directly from the source files.
-/

namespace DiffxPython

/-- Modelled from the spec: the engine is a native module absent from
src/.  IEEE-754 doubles are modelled as exact rationals together with
the special values NaN and the two infinities; section 4.4 only ever
inspects a float through equality, subtraction, absolute value and
order, all of which are exact on rationals. -/
inductive FloatVal where
  | finite (q : Rat)
  | posInf
  | negInf
  | nan
deriving DecidableEq

/-- Modelled from the spec, section 3: the tagged tree value over which
diffing is defined.  Mappings are association lists with string keys in
order of appearance. -/
inductive Value where
  | null
  | bool (b : Bool)
  | int (i : Int)
  | float (f : FloatVal)
  | str (s : String)
  | seq (elems : List Value)
  | map (entries : List (String × Value))

/-- Scalar identifier used by the keyed sequence-alignment regime: the
value found under the array id key when that value is a scalar. -/
inductive ScalarId where
  | sNull
  | sBool (b : Bool)
  | sInt (i : Int)
  | sFloat (f : FloatVal)
  | sStr (s : String)
deriving DecidableEq

/-- Modelled from the spec, section 3: one path segment, either a
mapping key, a positional sequence locator, or an identity tag. -/
inductive Seg where
  | key (k : String)
  | idx (i : Nat)
  | idTag (k : String) (v : ScalarId)
deriving DecidableEq

/-- Modelled from the spec, section 3: a difference record.  Unchanged
records are emitted only under the show_unchanged option. -/
inductive Diff where
  | added (path : List Seg) (value : Value)
  | removed (path : List Seg) (value : Value)
  | modified (path : List Seg) (oldV newV : Value)
  | typeChanged (path : List Seg) (oldV newV : Value)
  | unchanged (path : List Seg) (value : Value)

/-- Path of a difference record. -/
def Diff.path : Diff → List Seg
  | .added p _ => p
  | .removed p _ => p
  | .modified p _ _ => p
  | .typeChanged p _ _ => p
  | .unchanged p _ => p

/-- Rendering of the scalar id inside an identity tag. -/
def renderScalarId : ScalarId → String
  | .sNull => "null"
  | .sBool true => "true"
  | .sBool false => "false"
  | .sInt i => toString i
  | .sFloat (.finite q) => toString q
  | .sFloat .posInf => "inf"
  | .sFloat .negInf => "-inf"
  | .sFloat .nan => "nan"
  | .sStr s => s

/-- Rendering of one segment in non-leading position. -/
def renderSeg : Seg → String
  | .key k => "." ++ k
  | .idx i => "[" ++ toString i ++ "]"
  | .idTag k v => "[" ++ k ++ "=" ++ renderScalarId v ++ "]"

/-- Modelled from the spec, section 3 and the wire examples of section
6: dot-joined key segments with bracketed locators and no leading
dot. -/
def renderPath : List Seg → String
  | [] => ""
  | .key k :: rest => k ++ String.join (rest.map renderSeg)
  | s :: rest => renderSeg s ++ String.join (rest.map renderSeg)

/-- Prefix test on character lists. -/
def startsWithChain : List Char → List Char → Bool
  | [], _ => true
  | _ :: _, [] => false
  | a :: as, b :: bs => a == b && startsWithChain as bs

/-- Contiguous-substring test on character lists. -/
def hasSubstr (needle : List Char) : List Char → Bool
  | [] => needle.isEmpty
  | c :: t => startsWithChain needle (c :: t) || hasSubstr needle t

/-- String containment test mirroring the Python in operator on
strings: strContains hay needle is true when needle occurs contiguously
inside hay. -/
def strContains (hay needle : String) : Bool :=
  hasSubstr needle.data hay.data

/-- Modelled from the spec: pattern validity for the external regex
collaborator.  The concrete regex grammar lives in the native module;
the only malformation exercised by the repository is an unbalanced
bracket, so validity is modelled as balanced square brackets and
parentheses. -/
def regexValidAux : List Char → Nat → Nat → Bool
  | [], b, p => b == 0 && p == 0
  | c :: t, b, p =>
    if c = '[' then regexValidAux t (b + 1) p
    else if c = ']' then decide (0 < b) && regexValidAux t (b - 1) p
    else if c = '(' then regexValidAux t b (p + 1)
    else if c = ')' then decide (0 < p) && regexValidAux t b (p - 1)
    else regexValidAux t b p

/-- Validity of an ignore_keys_regex pattern. -/
def regexValid (pat : String) : Bool :=
  regexValidAux pat.data 0 0

/-- Modelled from the spec: matching against the external regex
collaborator, abstracted to the shapes the repository exercises (an
optional leading caret anchor followed by a literal, matched as prefix
or as substring).  No claim in this development depends on the matching
semantics, only on where the engine consults it. -/
def regexMatch (pat key : String) : Bool :=
  match pat.data with
  | '^' :: rest => startsWithChain rest key.data
  | cs => hasSubstr cs key.data

/-- Options consulted by the recursive walker (spec section 4.5; the
path_filter, output_format and presentation hints are consumed outside
the walk). -/
structure WalkOpts where
  epsilon : Option Rat := none
  arrayIdKey : Option String := none
  ignoreKeysRegex : Option String := none
  ignoreWhitespace : Bool := false
  ignoreCase : Bool := false
  showUnchanged : Bool := false
deriving DecidableEq

/-- Resolved option set (spec section 4.5). -/
structure Options where
  epsilon : Option Rat := none
  arrayIdKey : Option String := none
  ignoreKeysRegex : Option String := none
  pathFilter : Option String := none
  outputFormat : String := "diffx"
  ignoreWhitespace : Bool := false
  ignoreCase : Bool := false
  showUnchanged : Bool := false
  showTypes : Bool := false
  briefMode : Bool := false
  quietMode : Bool := false
  useMemoryOptimization : Bool := false
  contextLines : Nat := 3
  batchSize : Option Nat := none

/-- Projection of the resolved options onto the fields the walker
reads. -/
def Options.toWalkOpts (o : Options) : WalkOpts :=
  { epsilon := o.epsilon
    arrayIdKey := o.arrayIdKey
    ignoreKeysRegex := o.ignoreKeysRegex
    ignoreWhitespace := o.ignoreWhitespace
    ignoreCase := o.ignoreCase
    showUnchanged := o.showUnchanged }

/-- First-occurrence lookup in a mapping, mirroring dictionary access. -/
def lookupKey (es : List (String × Value)) (k : String) : Option Value :=
  match es with
  | [] => none
  | (k₁, v) :: t => if k₁ = k then some v else lookupKey t k

/-- First-occurrence lookup in the keyed partition. -/
def lookupId (l : List (ScalarId × Value)) (i : ScalarId) : Option Value :=
  match l with
  | [] => none
  | (i₁, v) :: t => if i₁ = i then some v else lookupId t i

/-- Conversion of a scalar value to a sequence-alignment identifier. -/
def toScalarId : Value → Option ScalarId
  | .null => some .sNull
  | .bool b => some (.sBool b)
  | .int i => some (.sInt i)
  | .float f => some (.sFloat f)
  | .str s => some (.sStr s)
  | _ => none

/-- Identifier of a sequence element under the keyed regime: present
exactly when the element is a mapping carrying the id key with a scalar
value. -/
def getId (idKey : String) : Value → Option ScalarId
  | .map es => (lookupKey es idKey).bind toScalarId
  | _ => none

/-- Modelled from the spec, section 4.3: split a sequence into its
keyed partition (id paired with the element, first occurrence of each
id) and its unkeyed partition (elements without a scalar id, plus later
repetitions of an already-seen id), both in original order. -/
def partitionKeyedAux (idKey : String) (seen : List ScalarId) :
    List Value → List (ScalarId × Value) × List Value
  | [] => ([], [])
  | e :: t =>
    match getId idKey e with
    | some i =>
      if seen.contains i then
        let r := partitionKeyedAux idKey seen t
        (r.1, e :: r.2)
      else
        let r := partitionKeyedAux idKey (i :: seen) t
        ((i, e) :: r.1, r.2)
    | none =>
      let r := partitionKeyedAux idKey seen t
      (r.1, e :: r.2)

/-- Keyed/unkeyed partition of a sequence under the keyed regime. -/
def partitionKeyed (idKey : String) (l : List Value) :
    List (ScalarId × Value) × List Value :=
  partitionKeyedAux idKey [] l

/-- Pairing of two lists with the positional index of each pair. -/
def zipWithIndex (start : Nat) : List Value → List Value → List (Nat × Value × Value)
  | a :: as, b :: bs => (start, a, b) :: zipWithIndex (start + 1) as bs
  | _, _ => []

/-- Trailing elements of the longer side, tagged with their indices. -/
def indexedTail (mk : List Seg → Value → Diff) (p : List Seg) (start : Nat) :
    List Value → List Diff
  | [] => []
  | v :: t => mk (p ++ [.idx start]) v :: indexedTail mk p (start + 1) t

/-- String normalisation before comparison (spec section 4.4). -/
def normStr (o : WalkOpts) (s : String) : String :=
  let s₁ := if o.ignoreWhitespace then String.mk (s.data.filter (fun c => !c.isWhitespace)) else s
  if o.ignoreCase then s₁.toLower else s₁

/-- Modelled from the spec, section 4.4: float equivalence.  NaN is
never equivalent to anything, infinities equal themselves, and finite
values use the absolute epsilon tolerance when it is positive. -/
def floatEquiv (eps : Option Rat) : FloatVal → FloatVal → Bool
  | .nan, _ => false
  | _, .nan => false
  | .posInf, .posInf => true
  | .negInf, .negInf => true
  | .finite a, .finite b =>
    let e := eps.getD 0
    if 0 < e then decide (|a - b| ≤ e) else a == b
  | _, _ => false

/-- Modelled from the spec, section 4.4: scalar equivalence for two
values of the same scalar variant. -/
def scalarEquiv (o : WalkOpts) : Value → Value → Bool
  | .null, .null => true
  | .bool x, .bool y => x == y
  | .int x, .int y => x == y
  | .float x, .float y => floatEquiv o.epsilon x y
  | .str x, .str y => normStr o x == normStr o y
  | _, _ => false

/-- Outcome of comparing two same-variant scalars at a path. -/
def scalarStep (o : WalkOpts) (p : List Seg) (a b : Value) : List Diff :=
  if scalarEquiv o a b then
    if o.showUnchanged then [.unchanged p a] else []
  else [.modified p a b]

/-- Key filtering during descent (spec section 4.5). -/
def keyIgnored (o : WalkOpts) (k : String) : Bool :=
  match o.ignoreKeysRegex with
  | none => false
  | some pat => regexMatch pat k

end DiffxPython

namespace DiffxPython

theorem lookupKey_mem {es : List (String × Value)} {k : String} {v : Value}
    (h : lookupKey es k = some v) : (k, v) ∈ es := by
  induction es with
  | nil => simp [lookupKey] at h
  | cons hd t ih =>
    obtain ⟨k₁, v₁⟩ := hd
    simp only [lookupKey] at h
    split at h
    · next heq =>
      cases h
      subst heq
      exact List.mem_cons_self _ _
    · exact List.mem_cons_of_mem _ (ih h)

theorem lookupId_mem {l : List (ScalarId × Value)} {i : ScalarId} {e : Value}
    (h : lookupId l i = some e) : (i, e) ∈ l := by
  induction l with
  | nil => simp [lookupId] at h
  | cons hd t ih =>
    obtain ⟨i₁, v₁⟩ := hd
    simp only [lookupId] at h
    split at h
    · next heq =>
      cases h
      subst heq
      exact List.mem_cons_self _ _
    · exact List.mem_cons_of_mem _ (ih h)

theorem sizeOf_lt_of_mem_entries {es : List (String × Value)} {k : String} {v : Value}
    (h : (k, v) ∈ es) : sizeOf v < sizeOf (Value.map es) := by
  have h₁ : sizeOf (k, v) < sizeOf es := List.sizeOf_lt_of_mem h
  simp only [Value.map.sizeOf_spec]
  simp only [Prod.mk.sizeOf_spec] at h₁
  omega

theorem sizeOf_lt_of_mem_elems {l : List Value} {v : Value}
    (h : v ∈ l) : sizeOf v < sizeOf (Value.seq l) := by
  have h₁ : sizeOf v < sizeOf l := List.sizeOf_lt_of_mem h
  simp only [Value.seq.sizeOf_spec]
  omega

theorem sizeOf_lt_of_lookupKey {es : List (String × Value)} {k : String} {v : Value}
    (h : lookupKey es k = some v) : sizeOf v < sizeOf (Value.map es) :=
  sizeOf_lt_of_mem_entries (lookupKey_mem h)

theorem partitionKeyedAux_fst_mem {idKey : String} {l : List Value}
    {i : ScalarId} {e : Value} :
    ∀ {seen : List ScalarId}, (i, e) ∈ (partitionKeyedAux idKey seen l).1 → e ∈ l := by
  induction l with
  | nil => intro seen h; simp [partitionKeyedAux] at h
  | cons hd t ih =>
    intro seen h
    simp only [partitionKeyedAux] at h
    split at h
    · next hid =>
      split at h
      · exact List.mem_cons_of_mem _ (ih h)
      · rcases List.mem_cons.mp h with h₁ | h₁
        · cases h₁; exact List.mem_cons_self _ _
        · exact List.mem_cons_of_mem _ (ih h₁)
    · exact List.mem_cons_of_mem _ (ih h)

theorem partitionKeyedAux_snd_sublist (idKey : String) (l : List Value) :
    ∀ seen : List ScalarId, List.Sublist (partitionKeyedAux idKey seen l).2 l := by
  induction l with
  | nil => intro seen; simp [partitionKeyedAux]
  | cons hd t ih =>
    intro seen
    simp only [partitionKeyedAux]
    split
    · next hid =>
      split
      · exact List.Sublist.cons₂ _ (ih seen)
      · exact List.Sublist.cons _ (ih _)
    · exact List.Sublist.cons₂ _ (ih seen)

theorem sizeOf_lt_of_lookupId_fst {idKey : String} {l : List Value}
    {i : ScalarId} {e : Value}
    (h : lookupId (partitionKeyed idKey l).1 i = some e) :
    sizeOf e < sizeOf (Value.seq l) :=
  sizeOf_lt_of_mem_elems (partitionKeyedAux_fst_mem (lookupId_mem h))

theorem sublist_sizeOf_le {l₁ l₂ : List Value} (h : List.Sublist l₁ l₂) :
    sizeOf l₁ ≤ sizeOf l₂ := by
  induction h with
  | slnil => exact Nat.le_refl _
  | cons a _ ih => simp only [List.cons.sizeOf_spec]; omega
  | cons₂ a _ ih => simp only [List.cons.sizeOf_spec]; omega

theorem sizeOf_partition_snd_le (idKey : String) (l : List Value) :
    sizeOf (partitionKeyed idKey l).2 ≤ sizeOf l :=
  sublist_sizeOf_le (partitionKeyedAux_snd_sublist idKey l [])

theorem zipWithIndex_mem {s : Nat} {l₁ l₂ : List Value} {t : Nat × Value × Value} :
    t ∈ zipWithIndex s l₁ l₂ → t.2.1 ∈ l₁ ∧ t.2.2 ∈ l₂ := by
  induction l₁ generalizing s l₂ with
  | nil => intro h; simp [zipWithIndex] at h
  | cons a as ih =>
    intro h
    cases l₂ with
    | nil => simp [zipWithIndex] at h
    | cons b bs =>
      simp only [zipWithIndex, List.mem_cons] at h
      rcases h with h | h
      · subst h; exact ⟨List.mem_cons_self _ _, List.mem_cons_self _ _⟩
      · obtain ⟨h₁, h₂⟩ := ih h
        exact ⟨List.mem_cons_of_mem _ h₁, List.mem_cons_of_mem _ h₂⟩

mutual

/-- Modelled from the spec, sections 4.2 and 4.3: the recursive walker.
Dispatches on the pair of variants: a variant mismatch yields a single
TypeChanged record, same-variant scalars compare per section 4.4,
mappings descend through the key union in old-then-new-only order with
ignore-key filtering, and sequences use the positional or the keyed
alignment regime depending on the array id key option. -/
def walk (o : WalkOpts) (p : List Seg) (a b : Value) : List Diff :=
  match a, b with
  | .null, .null => scalarStep o p .null .null
  | .bool x, .bool y => scalarStep o p (.bool x) (.bool y)
  | .int x, .int y => scalarStep o p (.int x) (.int y)
  | .float x, .float y => scalarStep o p (.float x) (.float y)
  | .str x, .str y => scalarStep o p (.str x) (.str y)
  | .map es₁, .map es₂ =>
    let keys₁ := es₁.map Prod.fst
    let keys₂ := es₂.map Prod.fst
    let allKeys := keys₁ ++ keys₂.filter (fun k => !keys₁.contains k)
    allKeys.flatMap (fun k =>
      if keyIgnored o k then []
      else
        match h₁ : lookupKey es₁ k, h₂ : lookupKey es₂ k with
        | some v₁, some v₂ => walk o (p ++ [.key k]) v₁ v₂
        | some v₁, none => [.removed (p ++ [.key k]) v₁]
        | none, some v₂ => [.added (p ++ [.key k]) v₂]
        | none, none => [])
  | .seq l₁, .seq l₂ =>
    match o.arrayIdKey with
    | none => walkPositional o p l₁ l₂
    | some idKey =>
      let ka := (partitionKeyed idKey l₁).1
      let kb := (partitionKeyed idKey l₂).1
      let ids₁ := ka.map Prod.fst
      let ids₂ := kb.map Prod.fst
      let allIds := ids₁ ++ ids₂.filter (fun i => !ids₁.contains i)
      (allIds.flatMap (fun i =>
        match h₁ : lookupId ka i, h₂ : lookupId kb i with
        | some e₁, some e₂ => walk o (p ++ [.idTag idKey i]) e₁ e₂
        | some e₁, none => [.removed (p ++ [.idTag idKey i]) e₁]
        | none, some e₂ => [.added (p ++ [.idTag idKey i]) e₂]
        | none, none => []))
      ++ walkPositional o p (partitionKeyed idKey l₁).2 (partitionKeyed idKey l₂).2
  | x, y => [.typeChanged p x y]
termination_by sizeOf a + sizeOf b
decreasing_by
  all_goals
    first
    | (have ha := sizeOf_lt_of_lookupKey h₁
       have hb := sizeOf_lt_of_lookupKey h₂
       omega)
    | (have ha := sizeOf_lt_of_lookupId_fst h₁
       have hb := sizeOf_lt_of_lookupId_fst h₂
       simp only [Value.seq.sizeOf_spec] at ha hb ⊢
       omega)
    | (have ha := sizeOf_partition_snd_le idKey l₁
       have hb := sizeOf_partition_snd_le idKey l₂
       simp only [Value.seq.sizeOf_spec]
       omega)
    | (simp only [Value.seq.sizeOf_spec]
       omega)

/-- Modelled from the spec, section 4.3: positional alignment.  Pairs
up to the shorter length recurse at their index; trailing elements of
the longer side are reported Added or Removed at ascending indices. -/
def walkPositional (o : WalkOpts) (p : List Seg) (l₁ l₂ : List Value) : List Diff :=
  (zipWithIndex 0 l₁ l₂).attach.flatMap
    (fun t => walk o (p ++ [.idx t.val.1]) t.val.2.1 t.val.2.2)
  ++ (if l₂.length < l₁.length
      then indexedTail .removed p l₂.length (l₁.drop l₂.length)
      else indexedTail .added p l₁.length (l₂.drop l₁.length))
termination_by sizeOf l₁ + sizeOf l₂
decreasing_by
  · obtain ⟨h₁, h₂⟩ := zipWithIndex_mem t.property
    have ha := List.sizeOf_lt_of_mem h₁
    have hb := List.sizeOf_lt_of_mem h₂
    omega

end

end DiffxPython

namespace DiffxPython

/-- Modelled from the spec, sections 4.1 and 4.5: the engine proper.
The walker produces the full difference list; the path filter is a pure
post-predicate on rendered paths applied afterwards. -/
def diffValues (o : Options) (a b : Value) : List Diff :=
  let ds := walk o.toWalkOpts [] a b
  match o.pathFilter with
  | none => ds
  | some s => ds.filter (fun d => strContains (renderPath d.path) s)

/-- One keyword argument of the unified diff entry point, as documented
in diffx.py.  Unrecognised keyword names are represented by the
unknownOpt constructor. -/
inductive KwArg where
  | epsilon (q : Rat)
  | arrayIdKey (k : String)
  | ignoreKeysRegex (pat : String)
  | pathFilter (s : String)
  | outputFormat (name : String)
  | ignoreWhitespace (b : Bool)
  | ignoreCase (b : Bool)
  | showUnchanged (b : Bool)
  | showTypes (b : Bool)
  | briefMode (b : Bool)
  | quietMode (b : Bool)
  | useMemoryOptimization (b : Bool)
  | contextLines (n : Nat)
  | batchSize (n : Nat)
  | unknownOpt (name : String)

/-- Output format names accepted by the option resolver. -/
def outputFormats : List String := ["diffx", "json", "yaml", "unified"]

/-- Modelled from the spec, section 4.5: interpretation of one keyword
argument.  Configuration errors arise exactly from an invalid
ignore-keys pattern, an unknown output-format name, or an unknown
option. -/
def applyKw (o : Options) : KwArg → Except String Options
  | .epsilon q => .ok { o with epsilon := some q }
  | .arrayIdKey k => .ok { o with arrayIdKey := some k }
  | .ignoreKeysRegex pat =>
    if regexValid pat then .ok { o with ignoreKeysRegex := some pat }
    else .error ("Invalid ignore_keys_regex: " ++ pat)
  | .pathFilter s => .ok { o with pathFilter := some s }
  | .outputFormat name =>
    if outputFormats.contains name then .ok { o with outputFormat := name }
    else .error ("Unknown output format: " ++ name)
  | .ignoreWhitespace b => .ok { o with ignoreWhitespace := b }
  | .ignoreCase b => .ok { o with ignoreCase := b }
  | .showUnchanged b => .ok { o with showUnchanged := b }
  | .showTypes b => .ok { o with showTypes := b }
  | .briefMode b => .ok { o with briefMode := b }
  | .quietMode b => .ok { o with quietMode := b }
  | .useMemoryOptimization b => .ok { o with useMemoryOptimization := b }
  | .contextLines n => .ok { o with contextLines := n }
  | .batchSize n => .ok { o with batchSize := some n }
  | .unknownOpt name => .error ("Unknown option: " ++ name)

/-- Option resolution over the whole keyword-argument list. -/
def resolveOptions (kw : List KwArg) : Except String Options :=
  kw.foldlM applyKw {}

/-- Well-formedness of one keyword argument, stated independently of
the resolver. -/
def validKwarg : KwArg → Bool
  | .ignoreKeysRegex pat => regexValid pat
  | .outputFormat name => outputFormats.contains name
  | .unknownOpt _ => false
  | _ => true

/-- Well-formedness of a keyword-argument list. -/
def validKwargs (kw : List KwArg) : Bool :=
  kw.all validKwarg

/-- Modelled from the spec: the native diff_py entry point, resolving
options and then running the total engine.  Its failures are plain
native exceptions carrying a message. -/
def diffApiNative (old new : Value) (kw : List KwArg) : Except String (List Diff) :=
  match resolveOptions kw with
  | .ok o => .ok (diffValues o old new)
  | .error e => .error e

/-- Kinds of exception observable by a caller of the Python layer:
the package DiffError, a filesystem error such as FileNotFoundError,
and any other native exception such as ValueError. -/
inductive PyError where
  | diffError (msg : String)
  | osError (msg : String)
  | valueError (msg : String)

/-- Message carried by an exception, as interpolated by str(e). -/
def PyError.msg : PyError → String
  | .diffError m => m
  | .osError m => m
  | .valueError m => m

/-- Test for the DiffError kind. -/
def PyError.isDiffErr : PyError → Bool
  | .diffError _ => true
  | _ => false

/-- The six native format parsers, external collaborators of the
package (spec section 4.7); the development is parametric in their
behaviour. -/
structure Natives where
  json : String → Except String Value
  yaml : String → Except String Value
  toml : String → Except String Value
  ini : String → Except String Value
  xml : String → Except String Value
  csv : String → Except String Value

/-- Reading a file from an abstract filesystem; a missing path raises
FileNotFoundError with the message shape CPython produces. -/
def readFile (fs : String → Option String) (p : String) : Except PyError String :=
  match fs p with
  | some c => .ok c
  | none => .error (.osError ("[Errno 2] No such file or directory: '" ++ p ++ "'"))

/-- Last path component, as pathlib derives the file name. -/
def lastComponent (cs : List Char) : List Char :=
  cs.foldl (fun acc c => if c = '/' then [] else acc ++ [c]) []

/-- Index of the last dot in a name, scanning left to right. -/
def lastDotIdxAux : List Char → Nat → Option Nat → Option Nat
  | [], _, acc => acc
  | c :: t, i, acc => lastDotIdxAux t (i + 1) (if c = '.' then some i else acc)

/-- Extension of a path following the pathlib suffix rule: the part of
the file name from its last dot, provided that dot is neither the first
nor the last character of the name. -/
def pathSuffix (p : String) : String :=
  let name := lastComponent p.data
  match lastDotIdxAux name 0 none with
  | none => ""
  | some i => if 0 < i ∧ i + 1 < name.length then String.mk (name.drop i) else ""

/-- Lower-casing of one character, over the ASCII range that file
extensions and format names inhabit. -/
def lowerChar (c : Char) : Char :=
  if 'A' ≤ c ∧ c ≤ 'Z' then Char.ofNat (c.toNat + 32) else c

/-- Lower-casing of a string, as applied by the sources to extensions
and format names. -/
def strLower (s : String) : String :=
  String.mk (s.data.map lowerChar)

/-- Lower-cased extension, as both diff_files implementations compute
it. -/
def lowerSuffix (p : String) : String :=
  strLower (pathSuffix p)

end DiffxPython

namespace DiffxPython.Diffx

/-- The unified diff wrapper of diffx.py: any exception from the native
call is re-raised as a DiffError. -/
def diff (old new : Value) (kw : List KwArg) : Except PyError (List Diff) :=
  match diffApiNative old new kw with
  | .ok r => .ok r
  | .error e => .error (.diffError ("Diff operation failed: " ++ e))

/-- The parse_json wrapper of diffx.py. -/
def parseJson (N : Natives) (c : String) : Except PyError Value :=
  match N.json c with
  | .ok v => .ok v
  | .error e => .error (.diffError ("JSON parse failed: " ++ e))

/-- The parse_csv wrapper of diffx.py. -/
def parseCsv (N : Natives) (c : String) : Except PyError Value :=
  match N.csv c with
  | .ok v => .ok v
  | .error e => .error (.diffError ("CSV parse failed: " ++ e))

/-- The parse_yaml wrapper of diffx.py. -/
def parseYaml (N : Natives) (c : String) : Except PyError Value :=
  match N.yaml c with
  | .ok v => .ok v
  | .error e => .error (.diffError ("YAML parse failed: " ++ e))

/-- The parse_toml wrapper of diffx.py. -/
def parseToml (N : Natives) (c : String) : Except PyError Value :=
  match N.toml c with
  | .ok v => .ok v
  | .error e => .error (.diffError ("TOML parse failed: " ++ e))

/-- The parse_ini wrapper of diffx.py. -/
def parseIni (N : Natives) (c : String) : Except PyError Value :=
  match N.ini c with
  | .ok v => .ok v
  | .error e => .error (.diffError ("INI parse failed: " ++ e))

/-- The parse_xml wrapper of diffx.py. -/
def parseXml (N : Natives) (c : String) : Except PyError Value :=
  match N.xml c with
  | .ok v => .ok v
  | .error e => .error (.diffError ("XML parse failed: " ++ e))

/-- Extension dispatch inlined in the diff_files of diffx.py: the
if-chain over recognised extensions, with a JSON attempt for any other
extension and an unsupported-format DiffError when that attempt also
fails. -/
def parseByExt (N : Natives) (ext c : String) : Except PyError Value :=
  if ext = ".json" then parseJson N c
  else if ext = ".yaml" || ext = ".yml" then parseYaml N c
  else if ext = ".toml" then parseToml N c
  else if ext = ".ini" || ext = ".cfg" then parseIni N c
  else if ext = ".xml" then parseXml N c
  else if ext = ".csv" then parseCsv N c
  else
    match parseJson N c with
    | .ok v => .ok v
    | .error _ => .error (.diffError ("Unsupported file format: " ++ ext))

/-- The diff_files of diffx.py: read both files, dispatch each by its
own lower-cased extension, diff, and wrap failures — a missing file
becomes a DiffError mentioning the file-not-found message, any other
exception becomes a generic comparison DiffError. -/
def diffFiles (N : Natives) (fs : String → Option String) (p₁ p₂ : String)
    (kw : List KwArg) : Except PyError (List Diff) :=
  let inner : Except PyError (List Diff) := do
    let c₁ ← readFile fs p₁
    let c₂ ← readFile fs p₂
    let d₁ ← parseByExt N (lowerSuffix p₁) c₁
    let d₂ ← parseByExt N (lowerSuffix p₂) c₂
    diff d₁ d₂ kw
  match inner with
  | .ok r => .ok r
  | .error (.osError m) => .error (.diffError ("File not found: " ++ m))
  | .error e => .error (.diffError ("Failed to compare files: " ++ e.msg))

/-- The diff_strings of diffx.py: the if-chain over format names, then
diff, with every failure re-wrapped in a comparison DiffError. -/
def diffStrings (N : Natives) (c₁ c₂ fmt : String) (kw : List KwArg) :
    Except PyError (List Diff) :=
  let inner : Except PyError (List Diff) :=
    if fmt = "json" then do
      let d₁ ← parseJson N c₁
      let d₂ ← parseJson N c₂
      diff d₁ d₂ kw
    else if fmt = "yaml" || fmt = "yml" then do
      let d₁ ← parseYaml N c₁
      let d₂ ← parseYaml N c₂
      diff d₁ d₂ kw
    else if fmt = "toml" then do
      let d₁ ← parseToml N c₁
      let d₂ ← parseToml N c₂
      diff d₁ d₂ kw
    else if fmt = "ini" || fmt = "cfg" then do
      let d₁ ← parseIni N c₁
      let d₂ ← parseIni N c₂
      diff d₁ d₂ kw
    else if fmt = "xml" then do
      let d₁ ← parseXml N c₁
      let d₂ ← parseXml N c₂
      diff d₁ d₂ kw
    else if fmt = "csv" then do
      let d₁ ← parseCsv N c₁
      let d₂ ← parseCsv N c₂
      diff d₁ d₂ kw
    else .error (.diffError ("Unsupported format: " ++ fmt))
  match inner with
  | .ok r => .ok r
  | .error e => .error (.diffError ("Failed to compare strings: " ++ e.msg))

end DiffxPython.Diffx

namespace DiffxPython.PkgInit

/-- The package init module re-exports the native diff directly, so its
failures surface as native exceptions, not as DiffError. -/
def diff (old new : Value) (kw : List KwArg) : Except PyError (List Diff) :=
  match diffApiNative old new kw with
  | .ok r => .ok r
  | .error e => .error (.valueError e)

/-- The extension table of the init module, mapping an extension to the
native parser it re-exports. -/
def parserForExt (ext : String) : Option (Natives → String → Except String Value) :=
  if ext = ".json" then some (fun N => N.json)
  else if ext = ".yaml" then some (fun N => N.yaml)
  else if ext = ".yml" then some (fun N => N.yaml)
  else if ext = ".toml" then some (fun N => N.toml)
  else if ext = ".ini" then some (fun N => N.ini)
  else if ext = ".cfg" then some (fun N => N.ini)
  else if ext = ".xml" then some (fun N => N.xml)
  else if ext = ".csv" then some (fun N => N.csv)
  else none

/-- The format table of the init module. -/
def parserForFormat (fmt : String) : Option (Natives → String → Except String Value) :=
  if fmt = "json" then some (fun N => N.json)
  else if fmt = "yaml" then some (fun N => N.yaml)
  else if fmt = "yml" then some (fun N => N.yaml)
  else if fmt = "toml" then some (fun N => N.toml)
  else if fmt = "ini" then some (fun N => N.ini)
  else if fmt = "cfg" then some (fun N => N.ini)
  else if fmt = "xml" then some (fun N => N.xml)
  else if fmt = "csv" then some (fun N => N.csv)
  else none

/-- The init module helper that parses content by file extension: a
table lookup calling the native parser directly (native failures
propagate unwrapped), with a JSON attempt for unknown extensions that
is wrapped in a DiffError when it fails. -/
def parseByExt (N : Natives) (ext c : String) : Except PyError Value :=
  match parserForExt ext with
  | some f =>
    match f N c with
    | .ok v => .ok v
    | .error e => .error (.valueError e)
  | none =>
    match N.json c with
    | .ok v => .ok v
    | .error _ => .error (.diffError ("Unsupported file format: " ++ ext))

/-- The init module helper that parses content by format name: the
name is lower-cased before the table lookup, and an unknown name raises
a DiffError. -/
def parseByFormat (N : Natives) (fmt c : String) : Except PyError Value :=
  match parserForFormat (strLower fmt) with
  | some f =>
    match f N c with
    | .ok v => .ok v
    | .error e => .error (.valueError e)
  | none => .error (.diffError ("Unsupported format: " ++ fmt))

/-- The diff_files of the init module: reads and dispatches like the
diffx.py version but with no surrounding exception handler, so
filesystem and native parser errors propagate to the caller
unwrapped. -/
def diffFiles (N : Natives) (fs : String → Option String) (p₁ p₂ : String)
    (kw : List KwArg) : Except PyError (List Diff) := do
  let c₁ ← readFile fs p₁
  let c₂ ← readFile fs p₂
  let d₁ ← parseByExt N (lowerSuffix p₁) c₁
  let d₂ ← parseByExt N (lowerSuffix p₂) c₂
  diff d₁ d₂ kw

/-- The diff_strings of the init module. -/
def diffStrings (N : Natives) (c₁ c₂ fmt : String) (kw : List KwArg) :
    Except PyError (List Diff) := do
  let d₁ ← parseByFormat N fmt c₁
  let d₂ ← parseByFormat N fmt c₂
  diff d₁ d₂ kw

end DiffxPython.PkgInit

namespace DiffxPython

/-- Test for the NaN float. -/
def FloatVal.isNan : FloatVal → Bool
  | .nan => true
  | _ => false

/-- A value is NaN-free when no float inside it is NaN.  Spec section
4.4 makes NaN inequivalent to everything including itself, so NaN-free
values are exactly those on which scalar equivalence is reflexive. -/
def nanFree : Value → Bool
  | .null => true
  | .bool _ => true
  | .int _ => true
  | .float f => !f.isNan
  | .str _ => true
  | .seq l => l.attach.all (fun t => nanFree t.val)
  | .map es => es.attach.all (fun t => nanFree t.val.2)
termination_by v => sizeOf v
decreasing_by
  · exact sizeOf_lt_of_mem_elems t.property
  · obtain ⟨⟨k, v⟩, hm⟩ := t
    exact sizeOf_lt_of_mem_entries hm

theorem nanFree_seq {l : List Value} :
    nanFree (.seq l) = true ↔ ∀ v ∈ l, nanFree v = true := by
  simp [nanFree, List.all_eq_true]

theorem nanFree_map {es : List (String × Value)} :
    nanFree (.map es) = true ↔ ∀ t ∈ es, nanFree t.2 = true := by
  simp [nanFree, List.all_eq_true]

theorem floatEquiv_refl (eps : Option Rat) (f : FloatVal) (h : f.isNan = false) :
    floatEquiv eps f f = true := by
  cases f with
  | nan => simp [FloatVal.isNan] at h
  | posInf => simp [floatEquiv]
  | negInf => simp [floatEquiv]
  | finite q =>
    simp only [floatEquiv]
    split
    · next he => simp only [sub_self, abs_zero, decide_eq_true_eq]; exact le_of_lt he
    · simp

theorem scalarStep_refl (o : WalkOpts) (hsu : o.showUnchanged = false)
    (p : List Seg) (v : Value) (hse : scalarEquiv o v v = true) :
    scalarStep o p v v = [] := by
  simp [scalarStep, hse, hsu]

theorem zipWithIndex_diag {l : List Value} :
    ∀ {s : Nat} {t : Nat × Value × Value}, t ∈ zipWithIndex s l l →
      t.2.1 = t.2.2 ∧ t.2.1 ∈ l := by
  induction l with
  | nil => intro s t h; simp [zipWithIndex] at h
  | cons a as ih =>
    intro s t h
    simp only [zipWithIndex, List.mem_cons] at h
    rcases h with h | h
    · subst h; exact ⟨rfl, List.mem_cons_self _ _⟩
    · have h₁ := ih h
      exact ⟨h₁.1, List.mem_cons_of_mem _ h₁.2⟩

end DiffxPython

namespace DiffxPython

theorem walkPositional_diag (o : WalkOpts) (p : List Seg) (l : List Value)
    (H : ∀ v ∈ l, ∀ p₁, walk o p₁ v v = []) :
    walkPositional o p l l = [] := by
  rw [walkPositional]
  refine List.append_eq_nil.mpr ⟨?_, ?_⟩
  · rw [List.flatMap_eq_nil_iff]
    intro t _
    obtain ⟨heq, hm⟩ := zipWithIndex_diag t.property
    rw [← heq]
    exact H _ hm _
  · simp [List.drop_length, indexedTail]

theorem walk_refl_aux (o : WalkOpts) (hsu : o.showUnchanged = false) :
    ∀ (n : Nat) (v : Value), sizeOf v ≤ n → nanFree v = true →
      ∀ p, walk o p v v = [] := by
  intro n
  induction n with
  | zero =>
    intro v hv
    exfalso
    cases v <;> simp at hv
  | succ n ih =>
    intro v hv hnf p
    cases v with
    | null => simp [walk, scalarStep, scalarEquiv, hsu]
    | bool b => simp [walk, scalarStep, scalarEquiv, hsu]
    | int i => simp [walk, scalarStep, scalarEquiv, hsu]
    | float f =>
      simp only [nanFree, Bool.not_eq_true'] at hnf
      simp [walk, scalarStep, scalarEquiv, floatEquiv_refl o.epsilon f hnf, hsu]
    | str s => simp [walk, scalarStep, scalarEquiv, hsu]
    | seq l =>
      have hsz : ∀ v ∈ l, sizeOf v ≤ n := by
        intro v hm
        have h₁ := sizeOf_lt_of_mem_elems hm
        have h₂ : sizeOf (Value.seq l) ≤ n + 1 := hv
        omega
      have hnfl := nanFree_seq.mp hnf
      have H : ∀ v ∈ l, ∀ p₁, walk o p₁ v v = [] := fun v hm p₁ =>
        ih v (hsz v hm) (hnfl v hm) p₁
      rcases harr : o.arrayIdKey with _ | idKey
      · rw [walk]
        simp only [harr]
        exact walkPositional_diag o p l H
      · rw [walk]
        simp only [harr]
        refine List.append_eq_nil.mpr ⟨?_, ?_⟩
        · rw [List.flatMap_eq_nil_iff]
          intro i _
          rcases h : lookupId (partitionKeyed idKey l).1 i with _ | e <;> simp [h]
          have hm : e ∈ l := partitionKeyedAux_fst_mem (lookupId_mem h)
          exact H e hm _
        · refine walkPositional_diag o p _ ?_
          intro v hm p₁
          exact H v ((partitionKeyedAux_snd_sublist idKey l []).subset hm) p₁
    | map es =>
      have hsz : ∀ t ∈ es, sizeOf (Prod.snd t) ≤ n := by
        intro t hm
        obtain ⟨k, v⟩ := t
        have h₁ := sizeOf_lt_of_mem_entries hm
        have h₂ : sizeOf (Value.map es) ≤ n + 1 := hv
        simp only at h₁ ⊢
        omega
      have hnfl := nanFree_map.mp hnf
      rw [walk]
      rw [List.flatMap_eq_nil_iff]
      intro k _
      split
      · rfl
      · rcases h : lookupKey es k with _ | v <;> simp [h]
        have hm : (k, v) ∈ es := lookupKey_mem h
        exact ih v (hsz (k, v) hm) (hnfl (k, v) hm) _

/-- Reflexivity of the walker on NaN-free values, for any option set
that does not request unchanged records. -/
theorem walk_refl (o : WalkOpts) (hsu : o.showUnchanged = false)
    (v : Value) (hnf : nanFree v = true) (p : List Seg) :
    walk o p v v = [] :=
  walk_refl_aux o hsu (sizeOf v) v (Nat.le_refl _) hnf p

end DiffxPython

namespace DiffxPython

theorem diffValues_refl (o : Options) (hsu : o.showUnchanged = false)
    (v : Value) (hnf : nanFree v = true) : diffValues o v v = [] := by
  unfold diffValues
  rw [walk_refl o.toWalkOpts hsu v hnf]
  cases h : o.pathFilter <;> simp

/-- Shared sample value used to instantiate hypotheses of several
claims at a concrete input. -/
def sampleValue : Value :=
  .map [("name", .str "Alice"), ("age", .int 30), ("tags", .seq [.str "a", .int 1])]

theorem sampleValue_nanFree : nanFree sampleValue = true := by
  simp [sampleValue, nanFree_map, nanFree_seq, nanFree]

/-- C2, counterexample: the claim quantifies over every Value, but at
the float NaN the engine modelled from spec section 4.4 (NaN is never
equivalent to anything, including itself) reports a Modified record, so
diff(v, v, no options) is not empty at v = NaN. -/
theorem c2_counterexample :
    ¬ (Diffx.diff (.float .nan) (.float .nan) [] = .ok []) := by
  simp [Diffx.diff, diffApiNative, resolveOptions, diffValues, walk, scalarStep,
    scalarEquiv, floatEquiv, pure, Except.pure]

/-- C2, amended: for every NaN-free Value v, the unified diff entry
point with no options returns the empty difference list. -/
theorem c2_reflexivity_nanfree (v : Value) (hnf : nanFree v = true) :
    Diffx.diff v v [] = .ok [] := by
  have h : diffValues {} v v = [] := diffValues_refl {} rfl v hnf
  simp [Diffx.diff, diffApiNative, resolveOptions, pure, Except.pure, h]

/-- C2, witness: the amended reflexivity theorem applied at a concrete
NaN-free value. -/
theorem c2_witness :
    nanFree sampleValue = true ∧ Diffx.diff sampleValue sampleValue [] = .ok [] :=
  ⟨sampleValue_nanFree, c2_reflexivity_nanfree sampleValue sampleValue_nanFree⟩

end DiffxPython

namespace DiffxPython

/-- Scalar ids carried by the elements of a sequence, in order. -/
def keyedIds (K : String) (l : List Value) : List ScalarId :=
  l.filterMap (getId K)

/-- Association of each keyed element with its id, in order. -/
def keyedAssoc (K : String) (l : List Value) : List (ScalarId × Value) :=
  l.filterMap (fun e => (getId K e).map (fun i => (i, e)))

theorem keyedAssoc_map_fst (K : String) (l : List Value) :
    (keyedAssoc K l).map Prod.fst = keyedIds K l := by
  induction l with
  | nil => rfl
  | cons e t ih =>
    rcases h : getId K e with _ | i <;>
      simp [keyedAssoc, keyedIds, List.filterMap_cons, h] <;>
      simpa [keyedAssoc, keyedIds] using ih

theorem mem_keyedAssoc {K : String} {l : List Value} {i : ScalarId} {e : Value}
    (h : (i, e) ∈ keyedAssoc K l) : e ∈ l ∧ getId K e = some i := by
  simp only [keyedAssoc, List.mem_filterMap] at h
  obtain ⟨a, ha, heq⟩ := h
  rcases hg : getId K a with _ | j <;> rw [hg] at heq
  · simp at heq
  · simp only [Option.map_some', Option.some.injEq, Prod.mk.injEq] at heq
    obtain ⟨h₁, h₂⟩ := heq
    subst h₁; subst h₂
    exact ⟨ha, hg⟩

theorem partitionKeyedAux_all_keyed {K : String} :
    ∀ {l : List Value} {seen : List ScalarId},
      (∀ e ∈ l, (getId K e).isSome = true) →
      (keyedIds K l).Nodup →
      (∀ i ∈ seen, i ∉ keyedIds K l) →
      partitionKeyedAux K seen l = (keyedAssoc K l, []) := by
  intro l
  induction l with
  | nil => intro seen _ _ _; rfl
  | cons e t ih =>
    intro seen hall hnd hdisj
    obtain ⟨i, hi⟩ := Option.isSome_iff_exists.mp (hall e (List.mem_cons_self _ _))
    have hids : keyedIds K (e :: t) = i :: keyedIds K t := by
      simp [keyedIds, List.filterMap_cons, hi]
    rw [hids] at hnd hdisj
    have hnotseen : seen.contains i = false := by
      rw [← Bool.not_eq_true]
      intro hc
      have hmem : i ∈ seen := by simpa using hc
      exact hdisj i hmem (List.mem_cons_self _ _)
    simp only [partitionKeyedAux, hi, hnotseen, Bool.false_eq_true, if_false]
    have ht : partitionKeyedAux K (i :: seen) t = (keyedAssoc K t, []) := by
      refine ih (fun x hx => hall x (List.mem_cons_of_mem _ hx))
        (List.nodup_cons.mp hnd).2 ?_
      intro j hj
      rcases List.mem_cons.mp hj with h₁ | h₁
      · subst h₁; exact (List.nodup_cons.mp hnd).1
      · intro hmem
        exact hdisj j h₁ (List.mem_cons_of_mem _ hmem)
    rw [ht]
    simp [keyedAssoc, List.filterMap_cons, hi]

theorem lookupId_perm {l₁ l₂ : List (ScalarId × Value)} (h : List.Perm l₁ l₂) :
    (l₁.map Prod.fst).Nodup → ∀ i : ScalarId,
      lookupId l₁ i = lookupId l₂ i := by
  induction h with
  | nil => intro _ _; rfl
  | cons x h ih =>
    intro hnd i
    obtain ⟨a, v⟩ := x
    simp only [lookupId]
    split
    · rfl
    · refine ih ?_ i
      simp only [List.map_cons, List.nodup_cons] at hnd
      exact hnd.2
  | swap x y t =>
    intro hnd i
    obtain ⟨a, v⟩ := x
    obtain ⟨b, w⟩ := y
    have hab : b ≠ a := by
      simp only [List.map_cons, List.nodup_cons, List.mem_cons] at hnd
      intro hba
      exact hnd.1 (Or.inl hba)
    simp only [lookupId]
    by_cases hb : b = i <;> by_cases ha : a = i
    · exact absurd (hb.trans ha.symm) hab
    · simp [hb, ha]
    · simp [hb, ha]
    · simp [hb, ha]
  | trans h₁ h₂ ih₁ ih₂ =>
    intro hnd i
    rw [ih₁ hnd i]
    exact ih₂ (((h₁.map Prod.fst).nodup_iff).mp hnd) i

end DiffxPython

namespace DiffxPython

theorem walkPositional_nil (o : WalkOpts) (p : List Seg) :
    walkPositional o p [] [] = [] := by
  rw [walkPositional]
  simp [zipWithIndex, indexedTail]

theorem walk_keyed_perm (o : WalkOpts) (K : String) (ho : o.arrayIdKey = some K)
    (hsu : o.showUnchanged = false) (l l₂ : List Value)
    (hall : ∀ e ∈ l, (getId K e).isSome = true)
    (hnd : (keyedIds K l).Nodup)
    (hnf : ∀ e ∈ l, nanFree e = true)
    (hperm : List.Perm l₂ l) (p : List Seg) :
    walk o p (.seq l) (.seq l₂) = [] := by
  have hp1 : partitionKeyed K l = (keyedAssoc K l, []) :=
    partitionKeyedAux_all_keyed hall hnd (by simp)
  have hall₂ : ∀ e ∈ l₂, (getId K e).isSome = true :=
    fun e he => hall e (hperm.subset he)
  have hidsperm : List.Perm (keyedIds K l₂) (keyedIds K l) := hperm.filterMap _
  have hnd₂ : (keyedIds K l₂).Nodup := (hidsperm.nodup_iff).mpr hnd
  have hp2 : partitionKeyed K l₂ = (keyedAssoc K l₂, []) :=
    partitionKeyedAux_all_keyed hall₂ hnd₂ (by simp)
  have hassocperm : List.Perm (keyedAssoc K l₂) (keyedAssoc K l) :=
    hperm.filterMap _
  rw [walk]
  simp only [ho, hp1, hp2]
  refine List.append_eq_nil.mpr ⟨?_, walkPositional_nil o p⟩
  rw [List.flatMap_eq_nil_iff]
  intro i _
  have hlk : lookupId (keyedAssoc K l₂) i = lookupId (keyedAssoc K l) i :=
    lookupId_perm hassocperm (by rw [keyedAssoc_map_fst]; exact hnd₂) i
  split
  · next e₁ e₂ h₁ h₂ =>
    rw [hp1] at h₁
    rw [hp2, hlk, h₁] at h₂
    cases h₂
    obtain ⟨hm, _⟩ := mem_keyedAssoc (lookupId_mem h₁)
    exact walk_refl o hsu e₁ (hnf e₁ hm) _
  · next e₁ h₁ h₂ =>
    rw [hp1] at h₁
    rw [hp2, hlk, h₁] at h₂
    cases h₂
  · next e₂ h₁ h₂ =>
    rw [hp1] at h₁
    rw [hp2, hlk, h₁] at h₂
    cases h₂
  · rfl

end DiffxPython

namespace DiffxPython

/-- Sequence element with a duplicated id, first flavour. -/
def c1dup1 : Value := .map [("id", .int 1), ("note", .str "first")]

/-- Sequence element with a duplicated id, second flavour. -/
def c1dup2 : Value := .map [("id", .int 1), ("note", .str "second")]

/-- C1, counterexample: the claim quantifies over every list of
Mappings carrying the id key, but spec section 4.3 sends repeated
occurrences of an id to the unkeyed positional partition, so swapping
two distinct records that share one id yields a non-empty diff even
though the new sequence is a permutation of the old. -/
theorem c1_counterexample :
    ¬ (Diffx.diff (.seq [c1dup1, c1dup2]) (.seq [c1dup2, c1dup1])
        [.arrayIdKey "id"] = .ok []) := by
  simp [Diffx.diff, diffApiNative, resolveOptions, applyKw, pure, Except.pure, diffValues,
    Options.toWalkOpts, walk, walkPositional, c1dup1, c1dup2, partitionKeyed, partitionKeyedAux,
    getId, lookupKey, toScalarId, lookupId, zipWithIndex, indexedTail, keyIgnored, scalarStep,
    scalarEquiv, List.attach, List.attachWith, List.foldlM, bind, Except.bind, normStr]

/-- C1, amended: permuting a sequence of Mappings that all carry the
array id key with scalar values is a zero-diff operation under that
option, provided the carried id values are pairwise distinct and the
elements are NaN-free.  Distinctness is forced by the duplicate-id
counterexample; NaN-freeness is forced by the NaN counterexample of the
reflexivity claim. -/
theorem c1_keyed_permutation_nodup (K : String) (l l₂ : List Value)
    (hall : ∀ e ∈ l, (getId K e).isSome = true)
    (hnd : (keyedIds K l).Nodup)
    (hnf : ∀ e ∈ l, nanFree e = true)
    (hperm : List.Perm l₂ l) :
    Diffx.diff (.seq l) (.seq l₂) [.arrayIdKey K] = .ok [] := by
  have hwalk := walk_keyed_perm (Options.toWalkOpts { arrayIdKey := some K }) K rfl rfl
    l l₂ hall hnd hnf hperm []
  simp [Diffx.diff, diffApiNative, resolveOptions, applyKw, pure, Except.pure,
    List.foldlM, bind, Except.bind, diffValues, hwalk]

/-- Distinct-id record used by the C1 witness, first user. -/
def c1u1 : Value := .map [("id", .int 1), ("name", .str "Alice")]

/-- Distinct-id record used by the C1 witness, second user. -/
def c1u2 : Value := .map [("id", .int 2), ("name", .str "Bob")]

/-- C1, witness: the amended keyed-permutation theorem applied to a
concrete two-element record array and its swap. -/
theorem c1_witness :
    (∀ e ∈ [c1u1, c1u2], (getId "id" e).isSome = true)
    ∧ (keyedIds "id" [c1u1, c1u2]).Nodup
    ∧ (∀ e ∈ [c1u1, c1u2], nanFree e = true)
    ∧ List.Perm [c1u2, c1u1] [c1u1, c1u2]
    ∧ Diffx.diff (.seq [c1u1, c1u2]) (.seq [c1u2, c1u1]) [.arrayIdKey "id"] = .ok [] := by
  have h₁ : ∀ e ∈ [c1u1, c1u2], (getId "id" e).isSome = true := by decide
  have h₂ : (keyedIds "id" [c1u1, c1u2]).Nodup := by decide
  have h₃ : ∀ e ∈ [c1u1, c1u2], nanFree e = true := by
    intro e he
    rcases List.mem_cons.mp he with rfl | he₁
    · simp [c1u1, nanFree_map, nanFree]
    · rcases List.mem_cons.mp he₁ with rfl | he₂
      · simp [c1u2, nanFree_map, nanFree]
      · simp at he₂
  have h₄ : List.Perm [c1u2, c1u1] [c1u1, c1u2] := List.Perm.swap c1u1 c1u2 []
  exact ⟨h₁, h₂, h₃, h₄, c1_keyed_permutation_nodup "id" _ _ h₁ h₂ h₃ h₄⟩

end DiffxPython

namespace DiffxPython

theorem exceptOk_isOk {ε α : Type} (x : α) : (Except.ok x : Except ε α).isOk = true := rfl

theorem exceptError_isOk {ε α : Type} (e : ε) :
    (Except.error e : Except ε α).isOk = false := rfl

theorem applyKw_isOk (o : Options) (a : KwArg) :
    (applyKw o a).isOk = validKwarg a := by
  cases a <;>
    first
    | rfl
    | (simp only [applyKw, validKwarg]
       split <;> simp_all [exceptOk_isOk, exceptError_isOk])

theorem foldlM_applyKw_isOk :
    ∀ (kw : List KwArg) (o₀ : Options),
      (List.foldlM applyKw o₀ kw).isOk = validKwargs kw := by
  intro kw
  induction kw with
  | nil => intro o₀; rfl
  | cons a t ih =>
    intro o₀
    rw [List.foldlM_cons]
    rcases ha : applyKw o₀ a with e | o₁
    · have hv : validKwarg a = false := by
        rw [← applyKw_isOk o₀ a, ha]; rfl
      simp [bind, Except.bind, validKwargs, List.all_cons, hv, ha, exceptError_isOk]
    · have hv : validKwarg a = true := by
        rw [← applyKw_isOk o₀ a, ha]; rfl
      simp only [bind, Except.bind, validKwargs, List.all_cons, hv, Bool.true_and]
      exact ih o₁

theorem resolveOptions_isOk (kw : List KwArg) :
    (resolveOptions kw).isOk = validKwargs kw :=
  foldlM_applyKw_isOk kw {}

theorem resolveOptions_append_pathFilter (kw : List KwArg) (s : String)
    (o : Options) (h : resolveOptions kw = .ok o) :
    resolveOptions (kw ++ [.pathFilter s]) = .ok { o with pathFilter := some s } := by
  unfold resolveOptions at h ⊢
  rw [List.foldlM_append, h]
  rfl

/-- C7: with path_filter set, diff returns exactly the records of the
unfiltered difference list whose rendered path contains the filter
substring, in unchanged relative order: the walk is independent of the
path filter and the filter is a pure post-predicate on rendered paths.
The first half states this for the engine on resolved options, the
second half for the diffx.py entry point on keyword arguments extended
with a path_filter setting. -/
theorem c7_path_filter :
    (∀ (o : Options) (a b : Value) (s : String),
      diffValues { o with pathFilter := some s } a b =
        (diffValues { o with pathFilter := none } a b).filter
          (fun d => strContains (renderPath d.path) s))
    ∧ (∀ (a b : Value) (kw : List KwArg) (s : String) (o : Options),
      resolveOptions kw = .ok o →
      Diffx.diff a b (kw ++ [.pathFilter s]) =
        .ok ((diffValues { o with pathFilter := none } a b).filter
          (fun d => strContains (renderPath d.path) s))) := by
  have hcore : ∀ (o : Options) (a b : Value) (s : String),
      diffValues { o with pathFilter := some s } a b =
        (diffValues { o with pathFilter := none } a b).filter
          (fun d => strContains (renderPath d.path) s) := fun _ _ _ _ => rfl
  refine ⟨hcore, ?_⟩
  intro a b kw s o h
  have hres := resolveOptions_append_pathFilter kw s o h
  simp [Diffx.diff, diffApiNative, hres, hcore o a b s]

/-- C7, witness: the keyword-argument half of the path-filter theorem
applied at empty keyword arguments and a concrete filter string. -/
theorem c7_witness :
    resolveOptions [] = .ok {}
    ∧ Diffx.diff sampleValue sampleValue ([] ++ [.pathFilter "name"]) =
      .ok ((diffValues { ({} : Options) with pathFilter := none }
          sampleValue sampleValue).filter
        (fun d => strContains (renderPath d.path) "name")) :=
  ⟨rfl, c7_path_filter.2 sampleValue sampleValue [] "name" {} rfl⟩

/-- C3: the unified diff entry point of diffx.py fails exactly on
malformed options (an invalid ignore_keys_regex pattern, an unknown
output_format name, or an unknown option name), it returns a difference
list on every pair of values with well-formed options, and every error
it raises is a DiffError carrying a message. -/
theorem c3_option_validation (old new : Value) (kw : List KwArg) :
    ((Diffx.diff old new kw).isOk = validKwargs kw)
    ∧ (∀ e, Diffx.diff old new kw = .error e → ∃ m, e = .diffError m) := by
  constructor
  · rcases hh : resolveOptions kw with e | o
    · have h₁ : Diffx.diff old new kw =
          .error (.diffError ("Diff operation failed: " ++ e)) := by
        simp [Diffx.diff, diffApiNative, hh]
      rw [h₁, exceptError_isOk, ← resolveOptions_isOk, hh, exceptError_isOk]
    · have h₁ : Diffx.diff old new kw = .ok (diffValues o old new) := by
        simp [Diffx.diff, diffApiNative, hh]
      rw [h₁, exceptOk_isOk, ← resolveOptions_isOk, hh, exceptOk_isOk]
  · intro e he
    rcases hh : resolveOptions kw with e₁ | o
    · simp only [Diffx.diff, diffApiNative, hh] at he
      cases he
      exact ⟨_, rfl⟩
    · simp [Diffx.diff, diffApiNative, hh] at he

/-- C3, witness: at a concrete unknown option the entry point returns a
DiffError, and the error-classification half of the validation theorem
applies to it. -/
theorem c3_witness :
    Diffx.diff sampleValue sampleValue [.unknownOpt "bogus"] =
      .error (.diffError "Diff operation failed: Unknown option: bogus")
    ∧ ∃ m, (PyError.diffError "Diff operation failed: Unknown option: bogus") =
        .diffError m := by
  have h : Diffx.diff sampleValue sampleValue [.unknownOpt "bogus"] =
      .error (.diffError "Diff operation failed: Unknown option: bogus") := rfl
  exact ⟨h, (c3_option_validation sampleValue sampleValue [.unknownOpt "bogus"]).2 _ h⟩

end DiffxPython

namespace DiffxPython

theorem startsWithChain_append (xs rest : List Char) :
    startsWithChain xs (xs ++ rest) = true := by
  induction xs with
  | nil => rfl
  | cons a as ih => simp [startsWithChain, ih]

theorem hasSubstr_start (xs rest : List Char) :
    hasSubstr xs (xs ++ rest) = true := by
  cases h : xs ++ rest with
  | nil =>
    have hx : xs = [] := (List.append_eq_nil.mp h).1
    subst hx
    rfl
  | cons c t =>
    rw [hasSubstr, ← h, startsWithChain_append]
    rfl

theorem hasSubstr_extend (pre n X : List Char) (h : hasSubstr n X = true) :
    hasSubstr n (pre ++ X) = true := by
  induction pre with
  | nil => exact h
  | cons c t ih => simp [hasSubstr, ih]

theorem strContains_start (mid rest : String) :
    strContains (mid ++ rest) mid = true := by
  unfold strContains
  exact hasSubstr_start mid.data rest.data

/-- C8: each public parser wrapper of diffx.py either returns a parsed
value or raises a DiffError whose message names the format that
failed. -/
theorem c8_parser_errors (N : Natives) (c : String) :
    ((Diffx.parseJson N c).isOk = true
      ∨ ∃ m, Diffx.parseJson N c = .error (.diffError m) ∧ strContains m "JSON" = true)
    ∧ ((Diffx.parseYaml N c).isOk = true
      ∨ ∃ m, Diffx.parseYaml N c = .error (.diffError m) ∧ strContains m "YAML" = true)
    ∧ ((Diffx.parseToml N c).isOk = true
      ∨ ∃ m, Diffx.parseToml N c = .error (.diffError m) ∧ strContains m "TOML" = true)
    ∧ ((Diffx.parseIni N c).isOk = true
      ∨ ∃ m, Diffx.parseIni N c = .error (.diffError m) ∧ strContains m "INI" = true)
    ∧ ((Diffx.parseXml N c).isOk = true
      ∨ ∃ m, Diffx.parseXml N c = .error (.diffError m) ∧ strContains m "XML" = true)
    ∧ ((Diffx.parseCsv N c).isOk = true
      ∨ ∃ m, Diffx.parseCsv N c = .error (.diffError m) ∧ strContains m "CSV" = true) := by
  refine ⟨?_, ?_, ?_, ?_, ?_, ?_⟩
  · rcases h : N.json c with e | v
    · exact Or.inr ⟨"JSON parse failed: " ++ e, by simp [Diffx.parseJson, h],
        strContains_start "JSON" (" parse failed: " ++ e)⟩
    · exact Or.inl (by simp [Diffx.parseJson, h, exceptOk_isOk])
  · rcases h : N.yaml c with e | v
    · exact Or.inr ⟨"YAML parse failed: " ++ e, by simp [Diffx.parseYaml, h],
        strContains_start "YAML" (" parse failed: " ++ e)⟩
    · exact Or.inl (by simp [Diffx.parseYaml, h, exceptOk_isOk])
  · rcases h : N.toml c with e | v
    · exact Or.inr ⟨"TOML parse failed: " ++ e, by simp [Diffx.parseToml, h],
        strContains_start "TOML" (" parse failed: " ++ e)⟩
    · exact Or.inl (by simp [Diffx.parseToml, h, exceptOk_isOk])
  · rcases h : N.ini c with e | v
    · exact Or.inr ⟨"INI parse failed: " ++ e, by simp [Diffx.parseIni, h],
        strContains_start "INI" (" parse failed: " ++ e)⟩
    · exact Or.inl (by simp [Diffx.parseIni, h, exceptOk_isOk])
  · rcases h : N.xml c with e | v
    · exact Or.inr ⟨"XML parse failed: " ++ e, by simp [Diffx.parseXml, h],
        strContains_start "XML" (" parse failed: " ++ e)⟩
    · exact Or.inl (by simp [Diffx.parseXml, h, exceptOk_isOk])
  · rcases h : N.csv c with e | v
    · exact Or.inr ⟨"CSV parse failed: " ++ e, by simp [Diffx.parseCsv, h],
        strContains_start "CSV" (" parse failed: " ++ e)⟩
    · exact Or.inl (by simp [Diffx.parseCsv, h, exceptOk_isOk])

end DiffxPython

namespace DiffxPython

theorem strContains_wrap (a b suf p : String) :
    strContains (a ++ (b ++ p ++ suf)) p = true := by
  unfold strContains
  show hasSubstr p.data (a.data ++ ((b.data ++ p.data) ++ suf.data)) = true
  have h : a.data ++ ((b.data ++ p.data) ++ suf.data) =
      (a.data ++ b.data) ++ (p.data ++ suf.data) := by
    simp [List.append_assoc]
  rw [h]
  exact hasSubstr_extend _ _ _ (hasSubstr_start _ _)

/-- Natives whose parsers all succeed with the null value, used to
instantiate parametric theorems at concrete inputs. -/
def trivNatives : Natives :=
  { json := fun _ => .ok .null
    yaml := fun _ => .ok .null
    toml := fun _ => .ok .null
    ini := fun _ => .ok .null
    xml := fun _ => .ok .null
    csv := fun _ => .ok .null }

/-- Natives whose JSON parser always fails, used to exercise the JSON
fallback failure path at concrete inputs. -/
def failJsonNatives : Natives :=
  { json := fun _ => .error "Expecting value: line 1 column 1 (char 0)"
    yaml := fun _ => .ok .null
    toml := fun _ => .ok .null
    ini := fun _ => .ok .null
    xml := fun _ => .ok .null
    csv := fun _ => .ok .null }

/-- C4, counterexample: the package init module also exposes a
diff_files, and that implementation has no exception handler, so a
missing file escapes to the caller as a bare FileNotFoundError rather
than as a DiffError. -/
theorem c4_counterexample :
    PkgInit.diffFiles trivNatives (fun _ => none) "a.json" "b.json" [] =
        .error (.osError "[Errno 2] No such file or directory: 'a.json'")
    ∧ (PyError.osError "[Errno 2] No such file or directory: 'a.json'").isDiffErr
        = false := by
  constructor
  · rfl
  · rfl

/-- C4, amended: the diffx.py diff_files surfaces a missing file (on
either side) as a DiffError whose message contains the offending path,
while the init-module diff_files propagates the filesystem error
unwrapped, with the offending path in its message. -/
theorem c4_fs_error_wrapping (N : Natives) (fs : String → Option String)
    (p₁ p₂ : String) (kw : List KwArg) :
    (fs p₁ = none → ∃ m, Diffx.diffFiles N fs p₁ p₂ kw = .error (.diffError m)
        ∧ strContains m p₁ = true)
    ∧ (∀ c₁, fs p₁ = some c₁ → fs p₂ = none →
        ∃ m, Diffx.diffFiles N fs p₁ p₂ kw = .error (.diffError m)
          ∧ strContains m p₂ = true)
    ∧ (fs p₁ = none → ∃ m, PkgInit.diffFiles N fs p₁ p₂ kw = .error (.osError m)
        ∧ strContains m p₁ = true) := by
  refine ⟨?_, ?_, ?_⟩
  · intro h
    refine ⟨"File not found: " ++
      ("[Errno 2] No such file or directory: '" ++ p₁ ++ "'"), ?_,
      strContains_wrap _ _ _ _⟩
    simp [Diffx.diffFiles, readFile, h, bind, Except.bind]
  · intro c₁ h₁ h₂
    refine ⟨"File not found: " ++
      ("[Errno 2] No such file or directory: '" ++ p₂ ++ "'"), ?_,
      strContains_wrap _ _ _ _⟩
    simp [Diffx.diffFiles, readFile, h₁, h₂, bind, Except.bind]
  · intro h
    refine ⟨"[Errno 2] No such file or directory: '" ++ p₁ ++ "'", ?_, ?_⟩
    · simp [PkgInit.diffFiles, readFile, h, bind, Except.bind]
    · exact strContains_wrap "" "[Errno 2] No such file or directory: '" "'" p₁

/-- C4, witness: the amended wrapping theorem applied to a concrete
missing file. -/
theorem c4_witness :
    ∃ m, Diffx.diffFiles trivNatives (fun _ => none) "a.json" "b.json" [] =
        .error (.diffError m) ∧ strContains m "a.json" = true :=
  (c4_fs_error_wrapping trivNatives (fun _ => none) "a.json" "b.json" []).1 rfl

end DiffxPython

namespace DiffxPython

/-- Extensions recognised by the dispatch tables of both diff_files
implementations. -/
def knownExts : List String :=
  [".json", ".yaml", ".yml", ".toml", ".ini", ".cfg", ".xml", ".csv"]

/-- Propagation of a native parser result by the init module: a success
passes through, a failure surfaces as the native exception. -/
def liftNative : Except String Value → Except PyError Value
  | .ok v => .ok v
  | .error e => .error (.valueError e)

/-- C5: diff_files selects a parser from the file extension alone
(.json to JSON, .yaml and .yml to YAML, .toml to TOML, .ini and .cfg to
INI, .xml to XML, .csv to CSV) in both implementations; any other
extension is given to the JSON parser, and a DiffError configuration
error is raised exactly when that JSON fallback also fails. -/
theorem c5_extension_dispatch (N : Natives) (c : String) :
    (∀ ext, ext ∉ knownExts →
      (∀ v, N.json c = .ok v →
        Diffx.parseByExt N ext c = .ok v ∧ PkgInit.parseByExt N ext c = .ok v)
      ∧ (∀ e, N.json c = .error e →
        Diffx.parseByExt N ext c =
            .error (.diffError ("Unsupported file format: " ++ ext))
          ∧ PkgInit.parseByExt N ext c =
            .error (.diffError ("Unsupported file format: " ++ ext))))
    ∧ (Diffx.parseByExt N ".json" c = Diffx.parseJson N c)
    ∧ (Diffx.parseByExt N ".yaml" c = Diffx.parseYaml N c)
    ∧ (Diffx.parseByExt N ".yml" c = Diffx.parseYaml N c)
    ∧ (Diffx.parseByExt N ".toml" c = Diffx.parseToml N c)
    ∧ (Diffx.parseByExt N ".ini" c = Diffx.parseIni N c)
    ∧ (Diffx.parseByExt N ".cfg" c = Diffx.parseIni N c)
    ∧ (Diffx.parseByExt N ".xml" c = Diffx.parseXml N c)
    ∧ (Diffx.parseByExt N ".csv" c = Diffx.parseCsv N c)
    ∧ (PkgInit.parseByExt N ".json" c = liftNative (N.json c))
    ∧ (PkgInit.parseByExt N ".yaml" c = liftNative (N.yaml c))
    ∧ (PkgInit.parseByExt N ".yml" c = liftNative (N.yaml c))
    ∧ (PkgInit.parseByExt N ".toml" c = liftNative (N.toml c))
    ∧ (PkgInit.parseByExt N ".ini" c = liftNative (N.ini c))
    ∧ (PkgInit.parseByExt N ".cfg" c = liftNative (N.ini c))
    ∧ (PkgInit.parseByExt N ".xml" c = liftNative (N.xml c))
    ∧ (PkgInit.parseByExt N ".csv" c = liftNative (N.csv c)) := by
  refine ⟨?_, rfl, rfl, rfl, rfl, rfl, rfl, rfl, rfl,
    ?_, ?_, ?_, ?_, ?_, ?_, ?_, ?_⟩
  · intro ext hne
    simp only [knownExts, List.mem_cons, List.not_mem_nil, or_false, not_or] at hne
    obtain ⟨h₁, h₂, h₃, h₄, h₅, h₆, h₇, h₈⟩ := hne
    constructor
    · intro v hv
      constructor
      · simp [Diffx.parseByExt, h₁, h₂, h₃, h₄, h₅, h₆, h₇, h₈, Diffx.parseJson, hv]
      · simp [PkgInit.parseByExt, PkgInit.parserForExt,
          h₁, h₂, h₃, h₄, h₅, h₆, h₇, h₈, hv]
    · intro e he
      constructor
      · simp [Diffx.parseByExt, h₁, h₂, h₃, h₄, h₅, h₆, h₇, h₈, Diffx.parseJson, he]
      · simp [PkgInit.parseByExt, PkgInit.parserForExt,
          h₁, h₂, h₃, h₄, h₅, h₆, h₇, h₈, he]
  all_goals
    cases h : N.json c <;> cases h' : N.yaml c <;> cases h'' : N.toml c <;>
      first
      | rfl
      | (cases h₃ : N.ini c <;> cases h₄ : N.xml c <;> cases h₅ : N.csv c <;>
          simp [PkgInit.parseByExt, PkgInit.parserForExt, liftNative,
            h, h', h'', h₃, h₄, h₅])

end DiffxPython

namespace DiffxPython

/-- Format names recognised by the diff_strings dispatch of diffx.py,
and by the init module after lower-casing. -/
def recognizedFormats : List String :=
  ["json", "yaml", "yml", "toml", "ini", "cfg", "xml", "csv"]

/-- The native parser named by a format string, for stating the
dispatch contracts. -/
def namedNative (fmt : String) (N : Natives) : String → Except String Value :=
  if fmt = "json" then N.json
  else if fmt = "yaml" || fmt = "yml" then N.yaml
  else if fmt = "toml" then N.toml
  else if fmt = "ini" || fmt = "cfg" then N.ini
  else if fmt = "xml" then N.xml
  else if fmt = "csv" then N.csv
  else fun _ => .error "unrecognised format"

/-- C6: for a recognised format name, diff_strings parses both strings
with the parser that name designates and then diffs the two parsed
values (in the init module the call is literally the diff of the parsed
values; in diffx.py the successful diff result passes through
unchanged); an unrecognised format name raises a DiffError whose
message depends only on the name, without consulting the contents. -/
theorem c6_diff_strings (N : Natives) (c₁ c₂ fmt : String) (kw : List KwArg) :
    (∀ v₁ v₂, fmt ∈ recognizedFormats →
      namedNative fmt N c₁ = .ok v₁ → namedNative fmt N c₂ = .ok v₂ →
      (∀ ds, Diffx.diff v₁ v₂ kw = .ok ds →
        Diffx.diffStrings N c₁ c₂ fmt kw = .ok ds)
      ∧ PkgInit.diffStrings N c₁ c₂ fmt kw = PkgInit.diff v₁ v₂ kw)
    ∧ (fmt ∉ recognizedFormats →
      Diffx.diffStrings N c₁ c₂ fmt kw =
        .error (.diffError ("Failed to compare strings: " ++ ("Unsupported format: " ++ fmt))))
    ∧ (strLower fmt ∉ recognizedFormats →
      PkgInit.diffStrings N c₁ c₂ fmt kw =
        .error (.diffError ("Unsupported format: " ++ fmt))) := by
  refine ⟨?_, ?_, ?_⟩
  · intro v₁ v₂ hmem h₁ h₂
    have hl₁ : strLower "json" = "json" := by decide
    have hl₂ : strLower "yaml" = "yaml" := by decide
    have hl₃ : strLower "yml" = "yml" := by decide
    have hl₄ : strLower "toml" = "toml" := by decide
    have hl₅ : strLower "ini" = "ini" := by decide
    have hl₆ : strLower "cfg" = "cfg" := by decide
    have hl₇ : strLower "xml" = "xml" := by decide
    have hl₈ : strLower "csv" = "csv" := by decide
    simp only [recognizedFormats, List.mem_cons, List.not_mem_nil, or_false] at hmem
    rcases hmem with rfl | rfl | rfl | rfl | rfl | rfl | rfl | rfl <;>
      simp [namedNative] at h₁ h₂ <;>
      exact ⟨fun ds hds => by
          simp [Diffx.diffStrings, Diffx.parseJson, Diffx.parseYaml, Diffx.parseToml,
            Diffx.parseIni, Diffx.parseXml, Diffx.parseCsv, h₁, h₂, bind, Except.bind, hds],
        by
          simp [PkgInit.diffStrings, PkgInit.parseByFormat, PkgInit.parserForFormat,
            hl₁, hl₂, hl₃, hl₄, hl₅, hl₆, hl₇, hl₈, h₁, h₂, bind, Except.bind]⟩
  · intro hne
    simp only [recognizedFormats, List.mem_cons, List.not_mem_nil, or_false,
      not_or] at hne
    obtain ⟨h₁, h₂, h₃, h₄, h₅, h₆, h₇, h₈⟩ := hne
    simp [Diffx.diffStrings, h₁, h₂, h₃, h₄, h₅, h₆, h₇, h₈, PyError.msg]
  · intro hne
    simp only [recognizedFormats, List.mem_cons, List.not_mem_nil, or_false,
      not_or] at hne
    obtain ⟨h₁, h₂, h₃, h₄, h₅, h₆, h₇, h₈⟩ := hne
    simp [PkgInit.diffStrings, PkgInit.parseByFormat, PkgInit.parserForFormat,
      h₁, h₂, h₃, h₄, h₅, h₆, h₇, h₈, bind, Except.bind]

end DiffxPython

namespace DiffxPython

/-- C5, witness: the dispatch theorem applied at an unknown extension
whose JSON fallback fails, yielding the configuration DiffError in both
implementations. -/
theorem c5_witness :
    (".txt" ∉ knownExts)
    ∧ failJsonNatives.json "hello" =
        .error "Expecting value: line 1 column 1 (char 0)"
    ∧ Diffx.parseByExt failJsonNatives ".txt" "hello" =
        .error (.diffError "Unsupported file format: .txt")
    ∧ PkgInit.parseByExt failJsonNatives ".txt" "hello" =
        .error (.diffError "Unsupported file format: .txt") := by
  have hne : ".txt" ∉ knownExts := by decide
  have hj : failJsonNatives.json "hello" =
      .error "Expecting value: line 1 column 1 (char 0)" := rfl
  have h := ((c5_extension_dispatch failJsonNatives "hello").1 ".txt" hne).2 _ hj
  exact ⟨hne, hj, h.1, h.2⟩

/-- C6, witness: the dispatch theorem applied at the json format name
with trivially succeeding natives and equal parse results. -/
theorem c6_witness :
    ("json" ∈ recognizedFormats)
    ∧ namedNative "json" trivNatives "x" = .ok .null
    ∧ Diffx.diff .null .null [] = .ok []
    ∧ Diffx.diffStrings trivNatives "x" "y" "json" [] = .ok [] := by
  have hmem : "json" ∈ recognizedFormats := by decide
  have h₁ : namedNative "json" trivNatives "x" = .ok .null := rfl
  have h₂ : namedNative "json" trivNatives "y" = .ok .null := rfl
  have hnf : nanFree Value.null = true := by simp [nanFree]
  have hds : Diffx.diff .null .null [] = .ok [] := by
    simp [Diffx.diff, diffApiNative, resolveOptions, pure, Except.pure,
      diffValues_refl {} rfl Value.null hnf]
  exact ⟨hmem, h₁, hds,
    ((c6_diff_strings trivNatives "x" "y" "json" []).1 .null .null hmem h₁ h₂).1 [] hds⟩

end DiffxPython

namespace DiffxPython

/-- C10: diff_files chooses each parser from that file's own extension
and never requires the two extensions to agree: a .json file compared
against a .yaml file is accepted, each side is parsed by its own
format, and the two parsed values are diffed, in both
implementations. -/
theorem c10_mixed_formats (N : Natives) (fs : String → Option String)
    (p₁ p₂ c₁ c₂ : String) (kw : List KwArg) (v₁ v₂ : Value) (ds : List Diff)
    (h₁ : fs p₁ = some c₁) (h₂ : fs p₂ = some c₂)
    (he₁ : lowerSuffix p₁ = ".json") (he₂ : lowerSuffix p₂ = ".yaml")
    (hp₁ : N.json c₁ = .ok v₁) (hp₂ : N.yaml c₂ = .ok v₂)
    (hd : diffApiNative v₁ v₂ kw = .ok ds) :
    Diffx.diffFiles N fs p₁ p₂ kw = .ok ds
    ∧ PkgInit.diffFiles N fs p₁ p₂ kw = .ok ds := by
  constructor
  · simp [Diffx.diffFiles, readFile, h₁, h₂, he₁, he₂, Diffx.parseByExt,
      Diffx.parseJson, Diffx.parseYaml, hp₁, hp₂, bind, Except.bind,
      Diffx.diff, hd]
  · simp [PkgInit.diffFiles, readFile, h₁, h₂, he₁, he₂, PkgInit.parseByExt,
      PkgInit.parserForExt, hp₁, hp₂, bind, Except.bind, PkgInit.diff, hd]

/-- Filesystem fixture with one JSON file and one YAML file. -/
def mixedFs : String → Option String := fun p =>
  if p = "old.json" then some "null"
  else if p = "new.yaml" then some "~"
  else none

/-- C10, witness: the mixed-format theorem applied to a concrete
filesystem holding old.json and new.yaml. -/
theorem c10_witness :
    mixedFs "old.json" = some "null"
    ∧ lowerSuffix "old.json" = ".json"
    ∧ lowerSuffix "new.yaml" = ".yaml"
    ∧ Diffx.diffFiles trivNatives mixedFs "old.json" "new.yaml" [] = .ok []
    ∧ PkgInit.diffFiles trivNatives mixedFs "old.json" "new.yaml" [] = .ok [] := by
  have hr₁ : mixedFs "old.json" = some "null" := rfl
  have hr₂ : mixedFs "new.yaml" = some "~" := rfl
  have he₁ : lowerSuffix "old.json" = ".json" := by decide
  have he₂ : lowerSuffix "new.yaml" = ".yaml" := by decide
  have hnf : nanFree Value.null = true := by simp [nanFree]
  have hd : diffApiNative .null .null [] = .ok [] := by
    simp [diffApiNative, resolveOptions, pure, Except.pure,
      diffValues_refl {} rfl Value.null hnf]
  have h := c10_mixed_formats trivNatives mixedFs "old.json" "new.yaml"
    "null" "~" [] .null .null [] hr₁ hr₂ he₁ he₂ rfl rfl hd
  exact ⟨hr₁, he₁, he₂, h.1, h.2⟩

end DiffxPython

namespace DiffxPython

/-- The native parser effectively associated with an extension by both
dispatch tables, with the JSON fallback for unknown extensions. -/
def extNative (ext : String) (N : Natives) : String → Except String Value :=
  if ext = ".json" then N.json
  else if ext = ".yaml" || ext = ".yml" then N.yaml
  else if ext = ".toml" then N.toml
  else if ext = ".ini" || ext = ".cfg" then N.ini
  else if ext = ".xml" then N.xml
  else if ext = ".csv" then N.csv
  else N.json

theorem parse_dispatch_agree (N : Natives) (ext c : String) (v : Value)
    (h : extNative ext N c = .ok v) :
    Diffx.parseByExt N ext c = .ok v ∧ PkgInit.parseByExt N ext c = .ok v := by
  by_cases h₁ : ext = ".json"
  · subst h₁
    simp [extNative] at h
    exact ⟨by simp [Diffx.parseByExt, Diffx.parseJson, h],
      by simp [PkgInit.parseByExt, PkgInit.parserForExt, h]⟩
  by_cases h₂ : ext = ".yaml"
  · subst h₂
    simp [extNative] at h
    exact ⟨by simp [Diffx.parseByExt, Diffx.parseYaml, h],
      by simp [PkgInit.parseByExt, PkgInit.parserForExt, h]⟩
  by_cases h₃ : ext = ".yml"
  · subst h₃
    simp [extNative] at h
    exact ⟨by simp [Diffx.parseByExt, Diffx.parseYaml, h],
      by simp [PkgInit.parseByExt, PkgInit.parserForExt, h]⟩
  by_cases h₄ : ext = ".toml"
  · subst h₄
    simp [extNative] at h
    exact ⟨by simp [Diffx.parseByExt, Diffx.parseToml, h],
      by simp [PkgInit.parseByExt, PkgInit.parserForExt, h]⟩
  by_cases h₅ : ext = ".ini"
  · subst h₅
    simp [extNative] at h
    exact ⟨by simp [Diffx.parseByExt, Diffx.parseIni, h],
      by simp [PkgInit.parseByExt, PkgInit.parserForExt, h]⟩
  by_cases h₆ : ext = ".cfg"
  · subst h₆
    simp [extNative] at h
    exact ⟨by simp [Diffx.parseByExt, Diffx.parseIni, h],
      by simp [PkgInit.parseByExt, PkgInit.parserForExt, h]⟩
  by_cases h₇ : ext = ".xml"
  · subst h₇
    simp [extNative] at h
    exact ⟨by simp [Diffx.parseByExt, Diffx.parseXml, h],
      by simp [PkgInit.parseByExt, PkgInit.parserForExt, h]⟩
  by_cases h₈ : ext = ".csv"
  · subst h₈
    simp [extNative] at h
    exact ⟨by simp [Diffx.parseByExt, Diffx.parseCsv, h],
      by simp [PkgInit.parseByExt, PkgInit.parserForExt, h]⟩
  · simp [extNative, h₁, h₂, h₃, h₄, h₅, h₆, h₇, h₈] at h
    exact ⟨by simp [Diffx.parseByExt, Diffx.parseJson,
        h₁, h₂, h₃, h₄, h₅, h₆, h₇, h₈, h],
      by simp [PkgInit.parseByExt, PkgInit.parserForExt,
        h₁, h₂, h₃, h₄, h₅, h₆, h₇, h₈, h]⟩

/-- C9, counterexample: with the upper-cased format name JSON the two
diff_strings implementations diverge on identical inputs: the init
module lower-cases the name and succeeds, while diffx.py compares the
name exactly and raises a DiffError. -/
theorem c9_counterexample :
    (PkgInit.diffStrings trivNatives "{}" "{}" "JSON" []).isOk = true
    ∧ (Diffx.diffStrings trivNatives "{}" "{}" "JSON" []).isOk = false := by
  constructor
  · rfl
  · rfl

/-- C9, amended: the two implementations of the convenience entry
points agree whenever every stage succeeds — for diff_strings, a format
name both tables recognise (exact lower-case spelling) with successful
parses and a successful diff; for diff_files, readable files whose
dispatched parses and diff succeed.  They diverge in the failure modes
exposed by the counterexample and by the filesystem claims: the init
module accepts case-insensitive format names, and propagates filesystem
and native parser errors unwrapped where diffx.py raises DiffError. -/
theorem c9_equiv_success (N : Natives) (kw : List KwArg) :
    (∀ c₁ c₂ fmt v₁ v₂ ds, fmt ∈ recognizedFormats →
      namedNative fmt N c₁ = .ok v₁ → namedNative fmt N c₂ = .ok v₂ →
      diffApiNative v₁ v₂ kw = .ok ds →
      Diffx.diffStrings N c₁ c₂ fmt kw = .ok ds
      ∧ PkgInit.diffStrings N c₁ c₂ fmt kw = .ok ds)
    ∧ (∀ fs p₁ p₂ c₁ c₂ v₁ v₂ ds,
      fs p₁ = some c₁ → fs p₂ = some c₂ →
      extNative (lowerSuffix p₁) N c₁ = .ok v₁ →
      extNative (lowerSuffix p₂) N c₂ = .ok v₂ →
      diffApiNative v₁ v₂ kw = .ok ds →
      Diffx.diffFiles N fs p₁ p₂ kw = .ok ds
      ∧ PkgInit.diffFiles N fs p₁ p₂ kw = .ok ds) := by
  constructor
  · intro c₁ c₂ fmt v₁ v₂ ds hmem h₁ h₂ hd
    have hl₁ : strLower "json" = "json" := by decide
    have hl₂ : strLower "yaml" = "yaml" := by decide
    have hl₃ : strLower "yml" = "yml" := by decide
    have hl₄ : strLower "toml" = "toml" := by decide
    have hl₅ : strLower "ini" = "ini" := by decide
    have hl₆ : strLower "cfg" = "cfg" := by decide
    have hl₇ : strLower "xml" = "xml" := by decide
    have hl₈ : strLower "csv" = "csv" := by decide
    simp only [recognizedFormats, List.mem_cons, List.not_mem_nil, or_false] at hmem
    rcases hmem with rfl | rfl | rfl | rfl | rfl | rfl | rfl | rfl <;>
      simp [namedNative] at h₁ h₂ <;>
      exact ⟨by
          simp [Diffx.diffStrings, Diffx.parseJson, Diffx.parseYaml, Diffx.parseToml,
            Diffx.parseIni, Diffx.parseXml, Diffx.parseCsv, h₁, h₂, bind, Except.bind,
            Diffx.diff, hd],
        by
          simp [PkgInit.diffStrings, PkgInit.parseByFormat, PkgInit.parserForFormat,
            hl₁, hl₂, hl₃, hl₄, hl₅, hl₆, hl₇, hl₈, h₁, h₂, bind, Except.bind,
            PkgInit.diff, hd]⟩
  · intro fs p₁ p₂ c₁ c₂ v₁ v₂ ds hr₁ hr₂ hp₁ hp₂ hd
    obtain ⟨ha₁, hb₁⟩ := parse_dispatch_agree N (lowerSuffix p₁) c₁ v₁ hp₁
    obtain ⟨ha₂, hb₂⟩ := parse_dispatch_agree N (lowerSuffix p₂) c₂ v₂ hp₂
    constructor
    · simp [Diffx.diffFiles, readFile, hr₁, hr₂, ha₁, ha₂, bind, Except.bind,
        Diffx.diff, hd]
    · simp [PkgInit.diffFiles, readFile, hr₁, hr₂, hb₁, hb₂, bind, Except.bind,
        PkgInit.diff, hd]

/-- C9, witness: the success-equivalence theorem applied to concrete
identical JSON strings under the lower-case format name. -/
theorem c9_witness :
    ("json" ∈ recognizedFormats)
    ∧ diffApiNative .null .null [] = .ok []
    ∧ Diffx.diffStrings trivNatives "{}" "{}" "json" [] = .ok []
    ∧ PkgInit.diffStrings trivNatives "{}" "{}" "json" [] = .ok [] := by
  have hmem : "json" ∈ recognizedFormats := by decide
  have hnf : nanFree Value.null = true := by simp [nanFree]
  have hd : diffApiNative .null .null [] = .ok [] := by
    simp [diffApiNative, resolveOptions, pure, Except.pure,
      diffValues_refl {} rfl Value.null hnf]
  have h := (c9_equiv_success trivNatives []).1 "{}" "{}" "json" .null .null []
    hmem rfl rfl hd
  exact ⟨hmem, hd, h.1, h.2⟩

end DiffxPython
